import Mathlib

/-!
Verification development for the job-based log-processing pipeline with
license-gated resource accounting (Django app: accounts/models.py and
discovery/views.py, discovery/models.py).

Shallow embedding conventions:
* Python strings are Lean String; str.endswith is modelled by suffix testing
  on the underlying character lists (pyEndsWith).
* The Django ORM job table is a List JobRec; object.save is modelled by
  functional update, and each save performed by the background runner is
  recorded in an explicit trace of snapshots.
* Exceptions raised by the external pipeline collaborators (pandas load,
  cleaning, mining, Graphviz rendering) are modelled by an environment
  record RunEnv of Except values, one per stage.
* The is_premium property of a user (license tier premium and not expired,
  evaluated at request time) is modelled as a boolean field.
-/

namespace PMT

/-- Keys of User.ALGORITHM_CHOICES in accounts/models.py. -/
def algorithmKeys : List String := ["alpha", "heuristics", "inductive"]

/-- Keys of EventLogJob.MINING_METHOD_CHOICES in discovery/models.py. -/
def validMiningMethods : List String := ["alpha", "heuristics"]

/-- Quota-relevant attributes of accounts.models.User. The field is_premium
models the computed is_premium property (premium license, not expired, at
request time). -/
structure User where
  id : Nat
  is_premium : Bool
  max_log_rows : Nat
  allowed_algorithms : List String
  max_projects : Nat
deriving Repr, DecidableEq

/-- User.get_allowed_algorithms from accounts/models.py: premium users or
users with an empty restriction list get every algorithm key. -/
def get_allowed_algorithms (u : User) : List String :=
  if u.is_premium || u.allowed_algorithms.isEmpty then algorithmKeys
  else u.allowed_algorithms

/-- User.can_use_algorithm from accounts/models.py. -/
def can_use_algorithm (u : User) (algorithm : String) : Bool :=
  (get_allowed_algorithms u).contains algorithm

/-- Helper for pyTitle: the boolean argument says whether the previous
character was alphabetic. -/
def pyTitleGo : Bool → List Char → List Char
  | _, [] => []
  | prevAlpha, c :: cs =>
    let c' := if c.isAlpha then (if prevAlpha then c.toLower else c.toUpper) else c
    c' :: pyTitleGo c.isAlpha cs

/-- Python str.title, used by create_job when building denial messages. -/
def pyTitle (s : String) : String := ⟨pyTitleGo false s.data⟩

/-- Python str.endswith as a test on the underlying character list. -/
def pyEndsWith (s suffix : String) : Bool := suffix.data.isSuffixOf s.data

/-- Python str.lower over the underlying character list. -/
def pyLower (s : String) : String := ⟨s.data.map Char.toLower⟩

/-- Python str.strip: drop whitespace from both ends. -/
def pyStrip (s : String) : String :=
  ⟨((s.data.dropWhile Char.isWhitespace).reverse.dropWhile Char.isWhitespace).reverse⟩

/-- Helper for fmtComma: insert a comma after every third character of the
reversed digit string. -/
def insertCommas : List Char → List Char
  | a :: b :: c :: d :: rest => a :: b :: c :: ',' :: insertCommas (d :: rest)
  | l => l

/-- Python format specifier with thousands separators, as used in the
row-limit denial message of create_job. -/
def fmtComma (n : Nat) : String := ⟨(insertCommas (toString n).data.reverse).reverse⟩

/-- Row of discovery.models.EventLogJob, restricted to the fields the job
pipeline reads or writes. File fields hold the stored name, none when blank. -/
structure JobRec where
  id : Nat
  userId : Nat
  project_name : String
  cleaning_enabled : Bool
  mining_method : String
  status : String
  progress : Nat
  message : String
  error_message : String
  output_map_svg : Option String
  output_map_image : Option String
  original_filename : String
deriving Repr, DecidableEq

/-- EventLogJob.get_output_url from discovery/models.py. -/
def get_output_url (j : JobRec) : Option String :=
  match j.output_map_svg with
  | some u => some u
  | none =>
    match j.output_map_image with
    | some u => some u
    | none => none

/-- EventLogJob.get_mining_method_display, the Django display name of the
mining_method choice field. -/
def get_mining_method_display (m : String) : String :=
  if m = "alpha" then "Alpha Miner"
  else if m = "heuristics" then "Heuristics Miner"
  else m

/-- Uploaded file of a create_job request: the client-supplied name, the
number of data rows pandas would parse out of it as CSV, and whether the
pandas pre-scan read raises. -/
structure UploadedFile where
  name : String
  csvDataRows : Nat
  csvReadFails : Bool
deriving Repr, DecidableEq

/-- Multipart form content of a POST to /jobs/create/. A field that is none
is absent from the form. -/
structure Request where
  file : Option UploadedFile
  cleaning_enabled : Option String
  mining_method : Option String
  project_name : Option String
deriving Repr, DecidableEq

/-- Durable server state touched by create_job: the job table, the persisted
upload files, and the next autoincrement id. -/
structure St where
  jobs : List JobRec
  files : List String
  nextId : Nat
deriving Repr, DecidableEq

/-- HTTP response: status code plus JSON body as key-value pairs. -/
structure Response where
  status : Nat
  body : List (String × String)
deriving Repr, DecidableEq

/-- Response of create_job when no file field is present. -/
def noFileResp : Response := ⟨400, [("error", "No file uploaded")]⟩

/-- Response of create_job when the filename fails the extension allow-list. -/
def extResp : Response :=
  ⟨400, [("error", "Only .xes and .csv files are supported")]⟩

/-- Response of create_job when the project name is empty after stripping. -/
def projectNameResp : Response := ⟨400, [("error", "Project name is required")]⟩

/-- Response of create_job when mining_method is outside the choice list. -/
def invalidMethodResp : Response :=
  ⟨400, [("error",
    "Invalid mining method. Choose from: [\x27alpha\x27, \x27heuristics\x27]")]⟩

/-- Algorithm-access denial response of create_job (license check 1). -/
def algDenialResp (u : User) (m : String) : Response :=
  ⟨403, [("error", "⚠️ You do not have access to the " ++ pyTitle m ++ " algorithm."),
         ("message", "Your plan allows: " ++
            String.intercalate ", " ((get_allowed_algorithms u).map pyTitle) ++
            ". Please upgrade to Premium for access to all algorithms."),
         ("upgrade_url", "/accounts/activate-license/")]⟩

/-- Project-limit denial response of create_job (license check 2). -/
def projDenialResp (maxProjects : Nat) : Response :=
  ⟨403, [("error", "⚠️ Project limit reached (" ++ toString maxProjects ++ " projects)."),
         ("message", "Please upgrade to Premium for unlimited projects or delete an existing project."),
         ("upgrade_url", "/accounts/activate-license/")]⟩

/-- Row-limit denial response of create_job (license check 3), carrying the
observed pre-scan row count. -/
def rowDenialResp (rowCount maxRows : Nat) : Response :=
  ⟨403, [("error", "⚠️ Log size limit exceeded (" ++ fmtComma rowCount ++ " rows)."),
         ("message", "Your plan allows up to " ++ fmtComma maxRows ++
            " rows. Please upgrade to Premium for unlimited log size."),
         ("upgrade_url", "/accounts/activate-license/")]⟩

/-- Success response of create_job. -/
def successResp (jid : Nat) : Response :=
  ⟨200, [("job_id", toString jid),
         ("progress_url", "/jobs/progress/" ++ toString jid ++ "/")]⟩

/-- Count of distinct non-empty project names among the jobs of one user,
as computed by the queryset in create_job (filter by user, exclude null and
empty project_name, values, distinct, count). -/
def distinctProjectCount (jobs : List JobRec) (uid : Nat) : Nat :=
  (((jobs.filter (fun j => j.userId == uid && j.project_name != "")).map
      (fun j => j.project_name)).dedup).length

/-- License check 2 of create_job: true when the request must be denied for
exceeding the project limit. Premium users skip the check; max_projects zero
means unlimited. -/
def projectLimitDenies (u : User) (count : Nat) : Bool :=
  if !u.is_premium then
    if 0 < u.max_projects then decide (u.max_projects ≤ count) else false
  else false

/-- License check 3 of create_job: the CSV row-limit pre-scan. Returns some
observed row count when the request must be denied, none when it proceeds.
The pre-scan reads at most max_log_rows + 1 rows; a pre-scan failure lets
the request proceed (fail-open). -/
def rowLimitScan (u : User) (f : UploadedFile) : Option Nat :=
  if pyEndsWith f.name ".csv" && !u.is_premium then
    if 0 < u.max_log_rows then
      if f.csvReadFails then none
      else
        let row_count := min f.csvDataRows (u.max_log_rows + 1)
        if u.max_log_rows < row_count then some row_count else none
    else none
  else none

/-- create_job from discovery/views.py: validation, the three license
checks in order (algorithm access, project limit, row limit), then job
creation and file persistence. -/
def create_job (u : User) (st : St) (req : Request) : St × Response :=
  match req.file with
  | none => (st, noFileResp)
  | some f =>
    if !(pyEndsWith f.name ".xes" || pyEndsWith f.name ".csv") then (st, extResp)
    else
      let cleaning_enabled := pyLower (req.cleaning_enabled.getD "false") == "true"
      let mining_method := req.mining_method.getD "alpha"
      let project_name := pyStrip (req.project_name.getD "")
      if project_name == "" then (st, projectNameResp)
      else if !(validMiningMethods.contains mining_method) then (st, invalidMethodResp)
      else if !(can_use_algorithm u mining_method) then (st, algDenialResp u mining_method)
      else if projectLimitDenies u (distinctProjectCount st.jobs u.id) then
        (st, projDenialResp u.max_projects)
      else
        match rowLimitScan u f with
        | some rowCount => (st, rowDenialResp rowCount u.max_log_rows)
        | none =>
          let job : JobRec :=
            { id := st.nextId
              userId := u.id
              project_name := project_name
              cleaning_enabled := cleaning_enabled
              mining_method := mining_method
              status := "pending"
              progress := 0
              message := "Job created, waiting to start..."
              error_message := ""
              output_map_svg := none
              output_map_image := none
              original_filename := f.name }
          ({ jobs := st.jobs ++ [job], files := st.files ++ [f.name],
             nextId := st.nextId + 1 },
           successResp st.nextId)

/-- job_status from discovery/views.py: the status endpoint, scoped to the
jobs of the requesting user; a missing or foreign job raises DoesNotExist,
answered with the generic 404 body. -/
def job_status (store : List JobRec) (uid : Nat) (jid : Nat) : Response :=
  match store.find? (fun j => j.id == jid && j.userId == uid) with
  | none => ⟨404, [("error", "Job not found")]⟩
  | some job =>
    let base := [("status", job.status), ("progress", toString job.progress),
                 ("message", job.message)]
    let withDone :=
      if job.status = "done" then
        base ++ [("redirect_url", "/dashboard/")] ++
          (match get_output_url job with
           | some u => [("output_url", u)]
           | none => [])
      else base
    let withErr :=
      if job.status = "error" then withDone ++ [("error_message", job.error_message)]
      else withDone
    ⟨200, withErr⟩

/-- Possible outcomes of the external pipeline collaborators during one run
of process_job: the load stage (pandas or pm4py), the cleaning stage, the
mining stage (with whether a PNML file was produced and exists), the
rendering stage (with whether the SVG file exists afterwards), and the
traceback text the except handler would format. Error values carry the
exception text. -/
structure RunEnv where
  loadEvents : Except String Nat
  cleanEvents : Except String Nat
  minePnml : Except String Bool
  renderResult : Except String Bool
  tb : String

/-- Except handler at the bottom of process_job: set state error, reset
progress, record the exception text and traceback. -/
def errRec (j : JobRec) (e tb : String) : JobRec :=
  { j with
      status := "error"
      progress := 0
      message := "Processing failed"
      error_message := e ++ "\n\n" ++ tb }

/-- Tail of the pipeline from the mining stage on (steps 3 to 5 of
process_job), given the job state after the optional cleaning stage and the
trace of snapshots saved so far. -/
def minePhase (j : JobRec) (tr : List JobRec) (env : RunEnv) : JobRec × List JobRec :=
  let j70 := { j with
    progress := 70
    message := "Running " ++ get_mining_method_display j.mining_method ++ "..." }
  match env.minePnml with
  | .error e =>
    let jf := errRec j70 e env.tb
    (jf, tr ++ [j70, jf])
  | .ok pnmlExists =>
    if pnmlExists then
      let j90 := { j70 with
        progress := 90
        message := "Generating visualization..." }
      let jSvg :=
        match env.renderResult with
        | .ok true =>
          { j90 with
            output_map_svg := some (j90.mining_method ++ "_job_" ++ toString j90.id ++ ".svg") }
        | .ok false => j90
        | .error _ => j90
      let jd := { jSvg with
        status := "done"
        progress := 100
        message := "Processing complete!" }
      (jd, tr ++ [j70, j90, jd])
    else
      let jd := { j70 with
        status := "done"
        progress := 100
        message := "Processing complete!" }
      (jd, tr ++ [j70, jd])

/-- Pipeline body of process_job for an existing job record, returning the
final record and the trace of saved snapshots in order. -/
def runPipeline (job0 : JobRec) (env : RunEnv) : JobRec × List JobRec :=
  let j1 := { job0 with
    status := "running"
    progress := 10
    message := "Loading event log file..." }
  match env.loadEvents with
  | .error e =>
    let jf := errRec j1 e env.tb
    (jf, [j1, jf])
  | .ok n =>
    let j2 := { j1 with
      progress := 30
      message := "Loaded " ++ toString n ++ " events from " ++ job0.original_filename }
    if job0.cleaning_enabled then
      let j3 := { j2 with
        progress := 40
        message := "Running data cleaning..." }
      match env.cleanEvents with
      | .error e =>
        let jf := errRec j3 e env.tb
        (jf, [j1, j2, j3, jf])
      | .ok n2 =>
        let j4 := { j3 with
          progress := 60
          message := "Cleaning complete. " ++ toString n2 ++ " events after cleaning." }
        minePhase j4 [j1, j2, j3, j4] env
    else
      minePhase j2 [j1, j2] env

/-- process_job from discovery/views.py: look up the job, run the pipeline,
catching every exception at top level; a missing job makes the DoesNotExist
escape to the except clause with job still None, so nothing is written.
Returns the updated job table and the trace of saves. -/
def process_job (store : List JobRec) (job_id : Nat) (env : RunEnv) :
    List JobRec × List JobRec :=
  match store.find? (fun j => j.id == job_id) with
  | none => (store, [])
  | some job0 =>
    let r := runPipeline job0 env
    (store.map (fun j => if j.id == job_id then r.1 else j), r.2)

/-- Terminal states of the job state machine. -/
def isTerminal (j : JobRec) : Prop := j.status = "done" ∨ j.status = "error"

instance (j : JobRec) : Decidable (isTerminal j) := by
  unfold isTerminal; infer_instance

/-! Concrete sample inputs used by witnesses. -/

/-- Sample premium user. -/
def demoUser : User := ⟨1, true, 0, [], 0⟩

/-- Sample free user restricted to the alpha algorithm. -/
def demoFreeUser : User := ⟨2, false, 1000, ["alpha"], 3⟩

/-- Sample upload with an upper-case extension. -/
def demoFileUpper : UploadedFile := ⟨"LOG.CSV", 5, false⟩

/-- Sample upload with a lower-case extension. -/
def demoFileLower : UploadedFile := ⟨"log.csv", 5, false⟩

/-- Sample request wrapping a given upload. -/
def demoReq (f : UploadedFile) : Request :=
  ⟨some f, some "false", some "alpha", some "proj"⟩

/-- Sample empty server state. -/
def demoSt : St := ⟨[], [], 1⟩

/-! Helper lemmas. -/

/-- Two suffixes of the same list with equal lengths coincide. -/
lemma suffix_eq_of_length {l₁ l₂ s : List Char} (h1 : l₁ <:+ s) (h2 : l₂ <:+ s)
    (hl : l₁.length = l₂.length) : l₁ = l₂ := by
  obtain ⟨t₁, rfl⟩ := h1
  obtain ⟨t₂, ht⟩ := h2
  have hlen : t₂.length = t₁.length := by
    have hc := congrArg List.length ht
    simp only [List.length_append] at hc
    omega
  exact ((List.append_inj ht hlen).2).symm

/-- A four-character extension whose lower-casing is .csv or .xes, but which
is not literally .csv or .xes, matches neither entry of the allow-list. -/
lemma pyEndsWith_case_variant_excl {ext s : String}
    (hlow : ext.data.map Char.toLower = ".csv".data ∨
            ext.data.map Char.toLower = ".xes".data)
    (hne1 : ext ≠ ".csv") (hne2 : ext ≠ ".xes")
    (h : pyEndsWith s ext = true) :
    pyEndsWith s ".csv" = false ∧ pyEndsWith s ".xes" = false := by
  have hlen : ext.data.length = 4 := by
    rcases hlow with hl | hl <;>
      simpa using congrArg List.length hl
  rw [pyEndsWith, List.isSuffixOf_iff_suffix] at h
  constructor
  · by_contra hcsv
    rw [pyEndsWith] at hcsv
    simp only [Bool.not_eq_false] at hcsv
    rw [List.isSuffixOf_iff_suffix] at hcsv
    have : ext.data = ".csv".data := suffix_eq_of_length h hcsv (by simp [hlen])
    exact hne1 (String.ext this)
  · by_contra hxes
    rw [pyEndsWith] at hxes
    simp only [Bool.not_eq_false] at hxes
    rw [List.isSuffixOf_iff_suffix] at hxes
    have : ext.data = ".xes".data := suffix_eq_of_length h hxes (by simp [hlen])
    exact hne2 (String.ext this)

/-- Branch analysis of create_job: either the state is returned untouched or
the request succeeded. -/
lemma create_job_state_or_success (u : User) (st : St) (req : Request) :
    (create_job u st req).1 = st ∨ (create_job u st req).2 = successResp st.nextId := by
  rcases hf : req.file with _ | f
  · simp [create_job, hf]
  · cases hext : (pyEndsWith f.name ".xes" || pyEndsWith f.name ".csv") <;>
    by_cases hpn : pyStrip (req.project_name.getD "") = "" <;>
    by_cases hvm : req.mining_method.getD "alpha" ∈ validMiningMethods <;>
    cases halg : can_use_algorithm u (req.mining_method.getD "alpha") <;>
    cases hproj : projectLimitDenies u (distinctProjectCount st.jobs u.id) <;>
    rcases hscan : rowLimitScan u f with _ | c <;>
    simp [create_job, hf, hext, hpn, hvm, halg, hproj, hscan]

/-- Branch analysis of create_job on a request with a file: the possible
responses, with the branch condition recorded for the responses the claims
need to tell apart. -/
lemma create_job_resp_cases (u : User) (st : St) (req : Request) (f : UploadedFile)
    (hf : req.file = some f) :
    (create_job u st req).2 = extResp ∨
    (create_job u st req).2 = projectNameResp ∨
    ((create_job u st req).2 = invalidMethodResp ∧
      req.mining_method.getD "alpha" ∉ validMiningMethods) ∨
    (create_job u st req).2 = algDenialResp u (req.mining_method.getD "alpha") ∨
    (create_job u st req).2 = projDenialResp u.max_projects ∨
    (∃ c, rowLimitScan u f = some c ∧
      (create_job u st req).2 = rowDenialResp c u.max_log_rows) ∨
    (create_job u st req).2 = successResp st.nextId := by
  cases hext : (pyEndsWith f.name ".xes" || pyEndsWith f.name ".csv") <;>
  by_cases hpn : pyStrip (req.project_name.getD "") = "" <;>
  by_cases hvm : req.mining_method.getD "alpha" ∈ validMiningMethods <;>
  cases halg : can_use_algorithm u (req.mining_method.getD "alpha") <;>
  cases hproj : projectLimitDenies u (distinctProjectCount st.jobs u.id) <;>
  rcases hscan : rowLimitScan u f with _ | c <;>
  simp [create_job, hf, hext, hpn, hvm, halg, hproj, hscan]

/-! Claim theorems. -/

/-- C6: algorithm access. Premium users may use every valid mining method; a
free user may use a valid method iff it is in the allowed_algorithms list or
that list is empty; a denial turns into the 403 algorithm response of
create_job with no file stored and no job row, and its message field lists
the permitted algorithms. -/
theorem algorithm_access_check :
    (∀ (u : User) (m : String), u.is_premium = true → m ∈ validMiningMethods →
      can_use_algorithm u m = true) ∧
    (∀ (u : User) (m : String), u.is_premium = false → m ∈ validMiningMethods →
      (can_use_algorithm u m = true ↔
        (m ∈ u.allowed_algorithms ∨ u.allowed_algorithms = []))) ∧
    (∀ (u : User) (st : St) (req : Request) (f : UploadedFile),
      req.file = some f →
      (pyEndsWith f.name ".xes" || pyEndsWith f.name ".csv") = true →
      pyStrip (req.project_name.getD "") ≠ "" →
      req.mining_method.getD "alpha" ∈ validMiningMethods →
      can_use_algorithm u (req.mining_method.getD "alpha") = false →
      create_job u st req = (st, algDenialResp u (req.mining_method.getD "alpha")) ∧
      (algDenialResp u (req.mining_method.getD "alpha")).status = 403 ∧
      (create_job u st req).1.files = st.files ∧
      (create_job u st req).1.jobs = st.jobs) ∧
    (∀ (u : User) (m : String),
      ("message", "Your plan allows: " ++
         String.intercalate ", " ((get_allowed_algorithms u).map pyTitle) ++
         ". Please upgrade to Premium for access to all algorithms.") ∈
        (algDenialResp u m).body) := by
  refine ⟨?_, ?_, ?_, ?_⟩
  · intro u m hp hm
    simp only [validMiningMethods, List.mem_cons, List.mem_singleton,
      List.not_mem_nil, or_false] at hm
    rcases hm with rfl | rfl <;> simp [can_use_algorithm, get_allowed_algorithms, hp] <;> decide
  · intro u m hp hm
    simp only [validMiningMethods, List.mem_cons, List.mem_singleton,
      List.not_mem_nil, or_false] at hm
    cases hemp : u.allowed_algorithms with
    | nil =>
      simp only [can_use_algorithm, get_allowed_algorithms, hp, hemp]
      rcases hm with rfl | rfl <;> simp <;> decide
    | cons a tl =>
      simp [can_use_algorithm, get_allowed_algorithms, hp, hemp,
        List.contains_iff_exists_mem_beq, beq_iff_eq]
  · intro u st req f hf hext hpn hvm halg
    have hred : create_job u st req =
        (st, algDenialResp u (req.mining_method.getD "alpha")) := by
      simp [create_job, hf, hext, hpn, hvm, halg]
    exact ⟨hred, rfl, by rw [hred], by rw [hred]⟩
  · intro u m
    simp [algDenialResp]

/-- Witness for C6: the premium sample user may run alpha, and the restricted
free sample user is denied heuristics inside create_job with a 403 and an
unchanged job table. -/
theorem algorithm_access_check_witness :
    can_use_algorithm demoUser "alpha" = true ∧
    create_job demoFreeUser demoSt
        { demoReq demoFileLower with mining_method := some "heuristics" } =
      (demoSt, algDenialResp demoFreeUser "heuristics") :=
  ⟨algorithm_access_check.1 demoUser "alpha" rfl (by decide),
   (algorithm_access_check.2.2.1 demoFreeUser demoSt
      { demoReq demoFileLower with mining_method := some "heuristics" }
      demoFileLower rfl (by decide) (by decide) (by decide) (by decide)).1⟩

/-- C7: project limit. The check denies exactly when the user is not premium,
max_projects is positive, and the count of distinct non-empty project names
among the existing jobs of the user has reached max_projects; premium users
and users with max_projects zero are never project-limited; a denial turns
into the 403 project response of create_job with no job row created. -/
theorem project_limit_check :
    (∀ (u : User) (c : Nat), projectLimitDenies u c = true ↔
      (u.is_premium = false ∧ 0 < u.max_projects ∧ u.max_projects ≤ c)) ∧
    (∀ (u : User) (c : Nat), u.is_premium = true → projectLimitDenies u c = false) ∧
    (∀ (u : User) (c : Nat), u.max_projects = 0 → projectLimitDenies u c = false) ∧
    (∀ (u : User) (st : St) (req : Request) (f : UploadedFile),
      req.file = some f →
      (pyEndsWith f.name ".xes" || pyEndsWith f.name ".csv") = true →
      pyStrip (req.project_name.getD "") ≠ "" →
      req.mining_method.getD "alpha" ∈ validMiningMethods →
      can_use_algorithm u (req.mining_method.getD "alpha") = true →
      projectLimitDenies u (distinctProjectCount st.jobs u.id) = true →
      create_job u st req = (st, projDenialResp u.max_projects) ∧
      (projDenialResp u.max_projects).status = 403 ∧
      (create_job u st req).1.jobs = st.jobs ∧
      (create_job u st req).1.files = st.files) := by
  refine ⟨?_, ?_, ?_, ?_⟩
  · intro u c
    cases hp : u.is_premium <;> simp only [projectLimitDenies, hp] <;>
      by_cases hmax : 0 < u.max_projects <;> simp [hmax]
  · intro u c hp
    simp [projectLimitDenies, hp]
  · intro u c hmax
    simp [projectLimitDenies, hmax]
  · intro u st req f hf hext hpn hvm halg hproj
    have hred : create_job u st req = (st, projDenialResp u.max_projects) := by
      simp [create_job, hf, hext, hpn, hvm, halg, hproj]
    exact ⟨hred, rfl, by rw [hred], by rw [hred]⟩

/-- Witness for C7: the free sample user with max_projects three and three
distinct project names is denied. -/
theorem project_limit_check_witness :
    projectLimitDenies demoFreeUser 3 = true :=
  (project_limit_check.1 demoFreeUser 3).mpr (by decide)

/-- C5: row limit. For a free user and a CSV filename the pre-scan denies
exactly when max_log_rows is positive, the pre-scan read succeeds, and the
file holds more than max_log_rows data rows; the observed count is obtained
by reading at most max_log_rows + 1 rows; exactly max_log_rows rows pass; a
failing pre-scan passes (fail-open); premium users are never row-limited; a
denial turns into the 403 row response of create_job carrying the observed
count, and a pass with all earlier checks green creates the job. -/
theorem row_limit_check :
    (∀ (u : User) (f : UploadedFile), u.is_premium = false →
      pyEndsWith f.name ".csv" = true →
      ((rowLimitScan u f).isSome = true ↔
        (0 < u.max_log_rows ∧ f.csvReadFails = false ∧
          u.max_log_rows < f.csvDataRows))) ∧
    (∀ (u : User) (f : UploadedFile) (c : Nat), rowLimitScan u f = some c →
      c = min f.csvDataRows (u.max_log_rows + 1) ∧ c ≤ u.max_log_rows + 1) ∧
    (∀ (u : User) (f : UploadedFile), f.csvDataRows = u.max_log_rows →
      rowLimitScan u f = none) ∧
    (∀ (u : User) (f : UploadedFile), f.csvReadFails = true →
      rowLimitScan u f = none) ∧
    (∀ (u : User) (f : UploadedFile), u.is_premium = true →
      rowLimitScan u f = none) ∧
    (∀ (u : User) (st : St) (req : Request) (f : UploadedFile) (c : Nat),
      req.file = some f →
      (pyEndsWith f.name ".xes" || pyEndsWith f.name ".csv") = true →
      pyStrip (req.project_name.getD "") ≠ "" →
      req.mining_method.getD "alpha" ∈ validMiningMethods →
      can_use_algorithm u (req.mining_method.getD "alpha") = true →
      projectLimitDenies u (distinctProjectCount st.jobs u.id) = false →
      rowLimitScan u f = some c →
      create_job u st req = (st, rowDenialResp c u.max_log_rows) ∧
      (rowDenialResp c u.max_log_rows).status = 403 ∧
      ("error", "⚠️ Log size limit exceeded (" ++ fmtComma c ++ " rows).") ∈
        (rowDenialResp c u.max_log_rows).body) ∧
    (∀ (u : User) (st : St) (req : Request) (f : UploadedFile),
      req.file = some f →
      (pyEndsWith f.name ".xes" || pyEndsWith f.name ".csv") = true →
      pyStrip (req.project_name.getD "") ≠ "" →
      req.mining_method.getD "alpha" ∈ validMiningMethods →
      can_use_algorithm u (req.mining_method.getD "alpha") = true →
      projectLimitDenies u (distinctProjectCount st.jobs u.id) = false →
      rowLimitScan u f = none →
      (create_job u st req).2 = successResp st.nextId ∧
      (create_job u st req).1.jobs.length = st.jobs.length + 1) := by
  refine ⟨?_, ?_, ?_, ?_, ?_, ?_, ?_⟩
  · intro u f hp hcsv
    by_cases hmax : 0 < u.max_log_rows <;>
      cases hfail : f.csvReadFails <;>
        simp [rowLimitScan, hp, hcsv, hmax, hfail, Nat.lt_min, Nat.lt_succ_iff]
  · intro u f c h
    by_cases h1 : (pyEndsWith f.name ".csv" && !u.is_premium) = true
    · by_cases h2 : 0 < u.max_log_rows
      · cases h3 : f.csvReadFails
        · by_cases h4 : u.max_log_rows < min f.csvDataRows (u.max_log_rows + 1)
          · simp only [rowLimitScan, h1, h2, h3, if_true, if_pos, if_neg] at h
            simp [h4] at h
            exact ⟨h.symm, by rw [← h]; exact min_le_right _ _⟩
          · simp [rowLimitScan, h1, h2, h3, h4] at h
        · simp [rowLimitScan, h1, h2, h3] at h
      · simp [rowLimitScan, h1, h2] at h
    · simp [rowLimitScan, h1] at h
  · intro u f h
    by_cases h1 : (pyEndsWith f.name ".csv" && !u.is_premium) = true
    · by_cases h2 : 0 < u.max_log_rows
      · cases h3 : f.csvReadFails
        · have h4 : ¬ u.max_log_rows < min f.csvDataRows (u.max_log_rows + 1) := by
            rw [h]; simp [Nat.lt_min]
          simp [rowLimitScan, h1, h2, h3, h4]
        · simp [rowLimitScan, h1, h2, h3]
      · simp [rowLimitScan, h1, h2]
    · simp [rowLimitScan, h1]
  · intro u f h
    by_cases h1 : (pyEndsWith f.name ".csv" && !u.is_premium) = true
    · by_cases h2 : 0 < u.max_log_rows <;> simp [rowLimitScan, h1, h2, h]
    · simp [rowLimitScan, h1]
  · intro u f hp
    simp [rowLimitScan, hp]
  · intro u st req f c hf hext hpn hvm halg hproj hscan
    have hred : create_job u st req = (st, rowDenialResp c u.max_log_rows) := by
      simp [create_job, hf, hext, hpn, hvm, halg, hproj, hscan]
    exact ⟨hred, rfl, by simp [rowDenialResp]⟩
  · intro u st req f hf hext hpn hvm halg hproj hscan
    have hred := create_job_state_or_success u st req
    constructor
    · simp [create_job, hf, hext, hpn, hvm, halg, hproj, hscan]
    · simp [create_job, hf, hext, hpn, hvm, halg, hproj, hscan]

/-- Witness for C5: the free sample user with max_log_rows 1000 is denied at
1001 data rows with observed count 1001, passes at exactly 1000 rows, and
passes when the pre-scan read raises. -/
theorem row_limit_check_witness :
    (rowLimitScan demoFreeUser ⟨"log.csv", 1001, false⟩).isSome = true ∧
    rowLimitScan demoFreeUser ⟨"log.csv", 1000, false⟩ = none ∧
    rowLimitScan demoFreeUser ⟨"log.csv", 999999, true⟩ = none :=
  ⟨(row_limit_check.1 demoFreeUser ⟨"log.csv", 1001, false⟩ rfl (by decide)).mpr
      (by decide),
   row_limit_check.2.2.1 demoFreeUser ⟨"log.csv", 1000, false⟩ rfl,
   row_limit_check.2.2.2.1 demoFreeUser ⟨"log.csv", 999999, true⟩ rfl⟩

/-- C1: the three license checks of create_job run in the order algorithm
access, project limit, row limit, and any denial answers 403 while leaving
the durable state untouched (no job row, no persisted file); only the branch
passing every check mutates state, appending exactly one job row and one
persisted file. -/
theorem create_job_quota_order_and_atomicity :
    (∀ (u : User) (st : St) (req : Request),
      (create_job u st req).2.status = 403 → (create_job u st req).1 = st) ∧
    (∀ (u : User) (st : St) (req : Request),
      (create_job u st req).2.status ≠ 200 → (create_job u st req).1 = st) ∧
    (∀ (u : User) (st : St) (req : Request) (f : UploadedFile),
      req.file = some f →
      (pyEndsWith f.name ".xes" || pyEndsWith f.name ".csv") = true →
      pyStrip (req.project_name.getD "") ≠ "" →
      req.mining_method.getD "alpha" ∈ validMiningMethods →
      (can_use_algorithm u (req.mining_method.getD "alpha") = false →
        create_job u st req = (st, algDenialResp u (req.mining_method.getD "alpha"))) ∧
      (can_use_algorithm u (req.mining_method.getD "alpha") = true →
        projectLimitDenies u (distinctProjectCount st.jobs u.id) = true →
        create_job u st req = (st, projDenialResp u.max_projects)) ∧
      (∀ c, can_use_algorithm u (req.mining_method.getD "alpha") = true →
        projectLimitDenies u (distinctProjectCount st.jobs u.id) = false →
        rowLimitScan u f = some c →
        create_job u st req = (st, rowDenialResp c u.max_log_rows)) ∧
      (can_use_algorithm u (req.mining_method.getD "alpha") = true →
        projectLimitDenies u (distinctProjectCount st.jobs u.id) = false →
        rowLimitScan u f = none →
        (create_job u st req).2 = successResp st.nextId ∧
        (create_job u st req).1.jobs.length = st.jobs.length + 1 ∧
        (create_job u st req).1.files = st.files ++ [f.name])) := by
  have atom : ∀ (u : User) (st : St) (req : Request),
      (create_job u st req).2.status ≠ 200 → (create_job u st req).1 = st := by
    intro u st req h
    rcases create_job_state_or_success u st req with h1 | h1
    · exact h1
    · rw [h1] at h
      exact absurd rfl h
  refine ⟨?_, atom, ?_⟩
  · intro u st req h
    apply atom
    rw [h]
    decide
  · intro u st req f hf hext hpn hvm
    refine ⟨?_, ?_, ?_, ?_⟩
    · intro halg
      simp [create_job, hf, hext, hpn, hvm, halg]
    · intro halg hproj
      simp [create_job, hf, hext, hpn, hvm, halg, hproj]
    · intro c halg hproj hscan
      simp [create_job, hf, hext, hpn, hvm, halg, hproj, hscan]
    · intro halg hproj hscan
      refine ⟨?_, ?_, ?_⟩ <;>
        simp [create_job, hf, hext, hpn, hvm, halg, hproj, hscan]

/-- Witness for C1: the denied heuristics request of the restricted free
sample user gets a 403 and leaves the state untouched. -/
theorem create_job_quota_order_and_atomicity_witness :
    (create_job demoFreeUser demoSt
      { demoReq demoFileLower with mining_method := some "heuristics" }).1 = demoSt :=
  create_job_quota_order_and_atomicity.1 demoFreeUser demoSt
    { demoReq demoFileLower with mining_method := some "heuristics" } (by decide)

/-- C9: the extension allow-list of create_job is case-sensitive: a filename
ending in any upper- or mixed-case variant of .csv or .xes is answered with
the 400 extension error and no state change, while the lower-case spelling
passes the check (concrete contrast: LOG.CSV is rejected, log.csv is accepted
and creates a job). -/
theorem create_job_extension_case_sensitive :
    (∀ ext : String,
      (ext.data.map Char.toLower = ".csv".data ∨ ext.data.map Char.toLower = ".xes".data) →
      ext ≠ ".csv" → ext ≠ ".xes" →
      ∀ (u : User) (st : St) (req : Request) (f : UploadedFile),
        req.file = some f → pyEndsWith f.name ext = true →
        create_job u st req = (st, extResp) ∧ extResp.status = 400) ∧
    create_job demoUser demoSt (demoReq demoFileUpper) = (demoSt, extResp) ∧
    (create_job demoUser demoSt (demoReq demoFileLower)).2 = successResp demoSt.nextId ∧
    (create_job demoUser demoSt (demoReq demoFileLower)).1.jobs.length =
      demoSt.jobs.length + 1 := by
  refine ⟨?_, by decide, by decide, by decide⟩
  intro ext hlow hne1 hne2 u st req f hf hext
  obtain ⟨hcsv, hxes⟩ := pyEndsWith_case_variant_excl hlow hne1 hne2 hext
  refine ⟨?_, rfl⟩
  simp [create_job, hf, hcsv, hxes]

/-- Witness for C9: the rejection branch applied to the concrete upload named
LOG.CSV. -/
theorem create_job_extension_case_sensitive_witness :
    create_job demoUser demoSt (demoReq demoFileUpper) = (demoSt, extResp) :=
  (create_job_extension_case_sensitive.1 ".CSV" (by decide) (by decide) (by decide)
    demoUser demoSt (demoReq demoFileUpper) demoFileUpper rfl (by decide)).1

/-- C10: an absent mining_method field silently defaults to alpha and the
request proceeds; the invalid-mining-method 400 response occurs only when a
value is present and outside the valid set. -/
theorem create_job_mining_method_default :
    (∀ (u : User) (st : St) (req : Request), req.mining_method = none →
      create_job u st req = create_job u st { req with mining_method := some "alpha" }) ∧
    (∀ (u : User) (st : St) (req : Request), req.mining_method = none →
      (create_job u st req).2 ≠ invalidMethodResp) ∧
    (∀ (u : User) (st : St) (req : Request),
      (create_job u st req).2 = invalidMethodResp →
      ∃ v, req.mining_method = some v ∧ v ∉ validMiningMethods) := by
  have key : ∀ (u : User) (st : St) (req : Request),
      (create_job u st req).2 = invalidMethodResp →
      ∃ v, req.mining_method = some v ∧ v ∉ validMiningMethods := by
    intro u st req h
    rcases hf : req.file with _ | f
    · simp only [create_job, hf] at h
      exact absurd h (by decide)
    · rcases create_job_resp_cases u st req f hf with
        hc | hc | ⟨hc, hcond⟩ | hc | hc | ⟨c, _, hc⟩ | hc
      · rw [h] at hc; exact absurd hc (by decide)
      · rw [h] at hc; exact absurd hc (by decide)
      · rcases hmm : req.mining_method with _ | v
        · rw [hmm] at hcond
          exact absurd (by decide : "alpha" ∈ validMiningMethods)
            (by simpa using hcond)
        · exact ⟨v, rfl, by simpa [hmm] using hcond⟩
      · rw [h] at hc
        have := congrArg Response.status hc
        simp [invalidMethodResp, algDenialResp] at this
      · rw [h] at hc
        have := congrArg Response.status hc
        simp [invalidMethodResp, projDenialResp] at this
      · rw [h] at hc
        have := congrArg Response.status hc
        simp [invalidMethodResp, rowDenialResp] at this
      · rw [h] at hc
        have := congrArg Response.status hc
        simp [invalidMethodResp, successResp] at this
  refine ⟨?_, ?_, key⟩
  · intro u st req h
    rcases req with ⟨rf, rc, rm, rp⟩
    cases h
    rfl
  · intro u st req h hbad
    rcases key u st req hbad with ⟨v, hv, _⟩
    rw [h] at hv
    exact Option.noConfusion hv

/-- Witness for C10: a request with the mining_method field absent behaves
exactly as the same request with mining_method alpha. -/
theorem create_job_mining_method_default_witness :
    create_job demoUser demoSt { demoReq demoFileLower with mining_method := none } =
      create_job demoUser demoSt
        { demoReq demoFileLower with mining_method := some "alpha" } :=
  create_job_mining_method_default.1 demoUser demoSt
    { demoReq demoFileLower with mining_method := none } rfl

/-- C8: for every authenticated user and job id, the status endpoint gives the
same generic 404 response, with no job fields in the body, both when the job
does not exist and when it belongs to another user; in particular it never
answers 403 for a foreign job, so the two cases are indistinguishable. -/
theorem job_status_uniform_not_found (store : List JobRec) (uid jid : Nat)
    (h : ∀ j ∈ store, ¬ (j.id = jid ∧ j.userId = uid)) :
    job_status store uid jid = ⟨404, [("error", "Job not found")]⟩ ∧
    (job_status store uid jid).status = 404 ∧
    (job_status store uid jid).status ≠ 403 := by
  have hfind : store.find? (fun j => j.id == jid && j.userId == uid) = none := by
    rw [List.find?_eq_none]
    intro a ha
    simp only [Bool.and_eq_true, beq_iff_eq, not_and]
    intro h1 h2
    exact h a ha ⟨h1, h2⟩
  refine ⟨?_, ?_, ?_⟩ <;> simp [job_status, hfind]

/-- Witness for C8 at a concrete store: a store holding only a job of user 1
answers the generic 404 to user 2 asking for that very job id. -/
theorem job_status_uniform_not_found_witness :
    job_status [{ id := 9, userId := 1, project_name := "p",
                  cleaning_enabled := false, mining_method := "alpha",
                  status := "done", progress := 100, message := "m",
                  error_message := "", output_map_svg := none,
                  output_map_image := none, original_filename := "a.csv" }] 2 9 =
      ⟨404, [("error", "Job not found")]⟩ :=
  (job_status_uniform_not_found _ 2 9 (by decide)).1

/-- Sample pending job record. -/
def demoJob : JobRec :=
  { id := 1, userId := 2, project_name := "proj", cleaning_enabled := false,
    mining_method := "alpha", status := "pending", progress := 0,
    message := "Job created, waiting to start...", error_message := "",
    output_map_svg := none, output_map_image := none,
    original_filename := "log.csv" }

/-- Sample fully successful run environment. -/
def demoEnvOk : RunEnv := ⟨Except.ok 5, Except.ok 5, Except.ok true, Except.ok true, "tb"⟩

/-- Sample environment whose load stage raises. -/
def demoEnvLoadFail : RunEnv :=
  ⟨Except.error "boom", Except.ok 5, Except.ok true, Except.ok true, "tb"⟩

/-- Sample environment whose rendering stage raises. -/
def demoEnvRenderFail : RunEnv :=
  ⟨Except.ok 5, Except.ok 5, Except.ok true, Except.error "no graphviz", "tb"⟩

/-- A job whose id differs from the processed one maps to itself in the
store update of process_job. -/
lemma mem_map_update_ne {store : List JobRec} {jid : Nat} {jf j : JobRec}
    (hj : j ∈ store) (hne : j.id ≠ jid) :
    j ∈ store.map (fun x => if x.id == jid then jf else x) := by
  refine List.mem_map.mpr ⟨j, hj, ?_⟩
  simp [hne]

/-- Updating the first record matching an id keeps it the first match of the
ownership-scoped lookup, provided the replacement keeps id and owner. -/
lemma find?_map_update (store : List JobRec) (jid uid : Nat) (jf job0 : JobRec)
    (hfind : store.find? (fun j => j.id == jid) = some job0)
    (hid : jf.id = jid) (huid : jf.userId = uid) :
    (store.map (fun j => if j.id == jid then jf else j)).find?
      (fun j => j.id == jid && j.userId == uid) = some jf := by
  induction store with
  | nil => simp at hfind
  | cons a l ih =>
    by_cases ha : a.id = jid
    · simp [List.find?_cons, ha, hid, huid]
    · rw [List.find?_cons_of_neg _ (by simp [ha])] at hfind
      rw [List.map_cons, List.find?_cons_of_neg _ (by simp [ha])]
      exact ih hfind

/-- Concatenating the two-newline separator makes the recorded error detail
non-empty. -/
lemma append_nl_ne_empty (e tb : String) : e ++ "\n\n" ++ tb ≠ "" := by
  intro h
  have hlen := congrArg String.length h
  have h2 : ("\n\n" : String).length = 2 := rfl
  simp [String.length_append, h2] at hlen

/-- C2: within one run of process_job on an existing pending job, progress is
non-decreasing across the saved snapshots until a terminal one, a snapshot in
state done carries progress 100 and a snapshot in state error carries
progress 0, no snapshot before the last is terminal, and on a run whose
load, cleaning (when enabled) and mining stages all succeed the executed
checkpoints are strictly increasing, being exactly 10, 30, (40, 60 when
cleaning), 70, 90, 100 when a model file is produced. -/
theorem process_job_progress_monotone (store : List JobRec) (jid : Nat) (env : RunEnv)
    (job0 : JobRec) (hfind : store.find? (fun j => j.id == jid) = some job0)
    (hs0 : job0.status = "pending") (hp0 : job0.progress = 0) :
    (process_job store jid env).2 = (runPipeline job0 env).2 ∧
    (∀ j ∈ (job0 :: (runPipeline job0 env).2).dropLast, ¬ isTerminal j) ∧
    List.Chain' (fun a b => isTerminal b ∨ a.progress ≤ b.progress)
      (job0 :: (runPipeline job0 env).2) ∧
    (∀ jl ∈ (runPipeline job0 env).2,
      (jl.status = "done" → jl.progress = 100) ∧
      (jl.status = "error" → jl.progress = 0)) ∧
    ((env.loadEvents.isOk = true ∧
      (job0.cleaning_enabled = true → env.cleanEvents.isOk = true) ∧
      env.minePnml.isOk = true) →
      List.Chain' (· < ·) ((runPipeline job0 env).2.map (fun j => j.progress))) ∧
    (∀ n, env.loadEvents = Except.ok n →
      (job0.cleaning_enabled = true → env.cleanEvents.isOk = true) →
      env.minePnml = Except.ok true →
      (runPipeline job0 env).2.map (fun j => j.progress) =
        if job0.cleaning_enabled then [10, 30, 40, 60, 70, 90, 100]
        else [10, 30, 70, 90, 100]) := by
  refine ⟨by simp [process_job, hfind], ?_⟩
  obtain ⟨le, ce, mp, rr, tb⟩ := env
  rcases le with e1 | n1
  · refine ⟨?_, ?_, ?_, ?_, ?_⟩ <;>
      simp [runPipeline, errRec, isTerminal, hs0, hp0, Except.isOk,
        Except.toBool, List.chain'_cons]
  · cases hc : job0.cleaning_enabled
    · rcases mp with e3 | b3
      · refine ⟨?_, ?_, ?_, ?_, ?_⟩ <;>
          simp [runPipeline, minePhase, errRec, isTerminal, hs0, hp0, hc,
            Except.isOk, Except.toBool, List.chain'_cons]
      · cases b3
        · refine ⟨?_, ?_, ?_, ?_, ?_⟩ <;>
            simp [runPipeline, minePhase, errRec, isTerminal, hs0, hp0, hc,
              Except.isOk, Except.toBool, List.chain'_cons]
        · rcases rr with e4 | b4
          · refine ⟨?_, ?_, ?_, ?_, ?_⟩ <;>
              simp [runPipeline, minePhase, errRec, isTerminal, hs0, hp0, hc,
                Except.isOk, Except.toBool, List.chain'_cons]
          · cases b4 <;>
              (refine ⟨?_, ?_, ?_, ?_, ?_⟩ <;>
                simp [runPipeline, minePhase, errRec, isTerminal, hs0, hp0, hc,
                  Except.isOk, Except.toBool, List.chain'_cons])
    · rcases ce with e2 | n2
      · refine ⟨?_, ?_, ?_, ?_, ?_⟩ <;>
          simp [runPipeline, minePhase, errRec, isTerminal, hs0, hp0, hc,
            Except.isOk, Except.toBool, List.chain'_cons]
      · rcases mp with e3 | b3
        · refine ⟨?_, ?_, ?_, ?_, ?_⟩ <;>
            simp [runPipeline, minePhase, errRec, isTerminal, hs0, hp0, hc,
              Except.isOk, Except.toBool, List.chain'_cons]
        · cases b3
          · refine ⟨?_, ?_, ?_, ?_, ?_⟩ <;>
              simp [runPipeline, minePhase, errRec, isTerminal, hs0, hp0, hc,
                Except.isOk, Except.toBool, List.chain'_cons]
          · rcases rr with e4 | b4
            · refine ⟨?_, ?_, ?_, ?_, ?_⟩ <;>
                simp [runPipeline, minePhase, errRec, isTerminal, hs0, hp0, hc,
                  Except.isOk, Except.toBool, List.chain'_cons]
            · cases b4 <;>
                (refine ⟨?_, ?_, ?_, ?_, ?_⟩ <;>
                  simp [runPipeline, minePhase, errRec, isTerminal, hs0, hp0, hc,
                    Except.isOk, Except.toBool, List.chain'_cons])

/-- Witness for C2 on the fully successful sample run: the saved progress
checkpoints of the sample job without cleaning. -/
theorem process_job_progress_monotone_witness :
    (runPipeline demoJob demoEnvOk).2.map (fun j => j.progress) =
      [10, 30, 70, 90, 100] := by
  have h := (process_job_progress_monotone [demoJob] 1 demoEnvOk demoJob rfl rfl
    rfl).2.2.2.2.2 5 rfl (fun hcc => absurd hcc (by decide)) rfl
  simpa [demoJob] using h

/-- C3: any exception of the load, cleaning or mining stage is caught by
process_job, which records state error, progress 0 and a non-empty
error_message holding the exception text and the traceback, and rewrites
only the processed record in the job table. -/
theorem process_job_pipeline_error (store : List JobRec) (jid : Nat) (env : RunEnv)
    (job0 : JobRec) (e : String)
    (hfind : store.find? (fun j => j.id == jid) = some job0)
    (hfail :
      env.loadEvents = Except.error e ∨
      (job0.cleaning_enabled = true ∧ (∃ n, env.loadEvents = Except.ok n) ∧
        env.cleanEvents = Except.error e) ∨
      ((∃ n, env.loadEvents = Except.ok n) ∧
        (job0.cleaning_enabled = true → ∃ n, env.cleanEvents = Except.ok n) ∧
        env.minePnml = Except.error e)) :
    (process_job store jid env).1 =
      store.map (fun j => if j.id == jid then (runPipeline job0 env).1 else j) ∧
    ((runPipeline job0 env).1).status = "error" ∧
    ((runPipeline job0 env).1).progress = 0 ∧
    ((runPipeline job0 env).1).error_message = e ++ "\n\n" ++ env.tb ∧
    ((runPipeline job0 env).1).error_message ≠ "" ∧
    (∀ j ∈ store, j.id ≠ jid → j ∈ (process_job store jid env).1) := by
  have hmain : ((runPipeline job0 env).1).status = "error" ∧
      ((runPipeline job0 env).1).progress = 0 ∧
      ((runPipeline job0 env).1).error_message = e ++ "\n\n" ++ env.tb := by
    rcases hfail with hle | ⟨hc, ⟨n, hle⟩, hce⟩ | ⟨⟨n, hle⟩, hcc, hmp⟩
    · simp [runPipeline, hle, errRec]
    · simp [runPipeline, hle, hc, hce, errRec]
    · cases hc2 : job0.cleaning_enabled
      · simp [runPipeline, minePhase, hle, hc2, hmp, errRec]
      · obtain ⟨n2, hce⟩ := hcc hc2
        simp [runPipeline, minePhase, hle, hc2, hce, hmp, errRec]
  refine ⟨by simp [process_job, hfind], hmain.1, hmain.2.1, hmain.2.2, ?_, ?_⟩
  · rw [hmain.2.2]
    exact append_nl_ne_empty e env.tb
  · intro j hj hne
    simp only [process_job, hfind]
    exact mem_map_update_ne hj hne

/-- Witness for C3: a load failure on the sample job is recorded as an error
state with the exception text and traceback, progress reset to 0. -/
theorem process_job_pipeline_error_witness :
    ((runPipeline demoJob demoEnvLoadFail).1).status = "error" ∧
    ((runPipeline demoJob demoEnvLoadFail).1).progress = 0 ∧
    ((runPipeline demoJob demoEnvLoadFail).1).error_message = "boom" ++ "\n\n" ++ "tb" :=
  ⟨(process_job_pipeline_error [demoJob] 1 demoEnvLoadFail demoJob "boom" rfl
      (Or.inl rfl)).2.1,
   (process_job_pipeline_error [demoJob] 1 demoEnvLoadFail demoJob "boom" rfl
      (Or.inl rfl)).2.2.1,
   (process_job_pipeline_error [demoJob] 1 demoEnvLoadFail demoJob "boom" rfl
      (Or.inl rfl)).2.2.2.1⟩

/-- C4: a rendering failure after a successful mining stage is tolerated:
the job still ends done with progress 100, no output image is stored, and
the status endpoint for the owner afterwards reports done without any
output_url field. -/
theorem process_job_render_failure_tolerated (store : List JobRec) (jid : Nat)
    (env : RunEnv) (job0 : JobRec) (n : Nat) (re : String)
    (hfind : store.find? (fun j => j.id == jid) = some job0)
    (hsvg : job0.output_map_svg = none) (himg : job0.output_map_image = none)
    (hle : env.loadEvents = Except.ok n)
    (hcc : job0.cleaning_enabled = true → ∃ m, env.cleanEvents = Except.ok m)
    (hmp : env.minePnml = Except.ok true)
    (hrr : env.renderResult = Except.error re) :
    ((runPipeline job0 env).1).status = "done" ∧
    ((runPipeline job0 env).1).progress = 100 ∧
    ((runPipeline job0 env).1).output_map_svg = none ∧
    ((runPipeline job0 env).1).output_map_image = none ∧
    get_output_url (runPipeline job0 env).1 = none ∧
    job_status (process_job store jid env).1 job0.userId jid =
      ⟨200, [("status", "done"), ("progress", toString (100 : Nat)),
             ("message", "Processing complete!"),
             ("redirect_url", "/dashboard/")]⟩ := by
  have hjf : (runPipeline job0 env).1 =
      { job0 with status := "done", progress := 100,
                  message := "Processing complete!" } := by
    cases hc : job0.cleaning_enabled
    · simp [runPipeline, minePhase, hle, hc, hmp, hrr]
    · obtain ⟨m, hce⟩ := hcc hc
      simp [runPipeline, minePhase, hle, hc, hce, hmp, hrr]
  have hid0 : job0.id = jid := by
    have hpred := List.find?_some hfind
    simpa using hpred
  have hfind2 : ((process_job store jid env).1).find?
      (fun j => j.id == jid && j.userId == job0.userId) =
        some (runPipeline job0 env).1 := by
    simp only [process_job, hfind]
    exact find?_map_update store jid job0.userId _ job0 hfind
      (by rw [hjf]; exact hid0) (by rw [hjf])
  refine ⟨by rw [hjf], by rw [hjf], by rw [hjf]; exact hsvg, by rw [hjf]; exact himg,
    ?_, ?_⟩
  · rw [hjf]
    simp [get_output_url, hsvg, himg]
  · rw [job_status, hfind2, hjf]
    simp [get_output_url, hsvg, himg]

/-- Witness for C4: the sample run whose rendering stage raises still ends
done at progress 100 with no output URL. -/
theorem process_job_render_failure_tolerated_witness :
    ((runPipeline demoJob demoEnvRenderFail).1).status = "done" ∧
    ((runPipeline demoJob demoEnvRenderFail).1).progress = 100 ∧
    get_output_url (runPipeline demoJob demoEnvRenderFail).1 = none := by
  have h := process_job_render_failure_tolerated [demoJob] 1 demoEnvRenderFail
    demoJob 5 "no graphviz" rfl rfl rfl rfl
    (fun hcc => absurd hcc (by decide)) rfl rfl
  exact ⟨h.1, h.2.1, h.2.2.2.2.1⟩

end PMT
